import Mathlib

/-! BDuseCase: the three HTTP handlers of the chat viewer over their store.

A shallow embedding of `main.go`: the handlers `viewMessages`, `viewLogs` and
`addMessage`, the three tables they read and write, and the parts of the Go
standard library whose results they branch on (`strconv.Atoi`,
`Request.ParseForm`, `Request.FormValue`, `url.ParseQuery`).

Conventions.

* A Go `string` that comes from a request is a sequence of bytes (`GoString`);
  a byte is a `Fin 256`, whose arithmetic wraps the way Go's `byte` does.
  Texts of a closed vocabulary (actions, target kinds, response bodies,
  template paths) and the `users` table, which the program never writes, are
  Lean strings.
* Go's `int` is 64 bits wide; values are `Int`, unsigned intermediate values
  are `Nat` reduced modulo `2 ^ 64` where the Go code can wrap.
* Timestamps are natural numbers; only their order is used.
* Everything the outside world decides (whether a statement fails, where a
  row stream breaks, which id the store assigns, the clock, whether a template
  file parses) is a field of `Env`, so a handler is a function of the
  environment, the store and the request.
-/

namespace BDuseCase

/-! ## Byte strings -/

/-- A Go `byte`. -/
abbrev Byte := Fin 256

/-- A Go `string`: an immutable sequence of bytes. -/
abbrev GoString := List Byte

/-- UTF-8 bytes of a string literal of the source. -/
def utf8 (s : String) : GoString :=
  s.toList.flatMap (fun c => (String.utf8EncodeChar c).map (fun b => Fin.ofNat b.toNat))

/-! ## strconv (Go standard library) -/

/-- The two sentinel errors a `*strconv.NumError` wraps. -/
inductive NumError where
  | ErrSyntax
  | ErrRange
  deriving DecidableEq, Repr

/-- Constant `strconv.IntSize`: the size in bits of an `int`. -/
def intSize : Nat := 64

/-- Largest `uint64`. -/
def maxUint64 : Nat := 2 ^ 64 - 1

/-- Largest `int`, `1<<63 - 1`. -/
def maxInt : Int := 2 ^ 63 - 1

/-- Smallest `int`, `-1<<63`. -/
def minInt : Int := -(2 ^ 63)

/-- Helper `lower` of strconv: `c | ('x' - 'X')`. -/
def lower (c : Byte) : Byte := Fin.ofNat (c.val ||| 32)

/-- The loop of the fast path of `Atoi`: `ch -= '0'; if ch > 9 return 0, syntaxError;
n = n*10 + int(ch)`. The result is `none` at the first byte that is not a digit. -/
def atoiFast : GoString → Int → Option Int
  | [], n => some n
  | ch :: rest, n =>
    let d : Byte := ch - 48
    if d > 9 then none else atoiFast rest (n * 10 + (d.val : Int))

/-- The loop of `ParseUint(s, 10, 0)` from the accumulator `n`: the value and
the error it returns. -/
def parseUintLoop : GoString → Nat → Nat × Option NumError
  | [], n => (n, none)
  | c :: rest, n =>
    let digit : Option Byte :=
      if 48 ≤ c ∧ c ≤ 57 then some (c - 48)
      else if 97 ≤ lower c ∧ lower c ≤ 122 then some (lower c - 97 + 10)
      else none
    match digit with
    | none => (0, some .ErrSyntax)
    | some d =>
      if d ≥ 10 then (0, some .ErrSyntax)
      else if n ≥ maxUint64 / 10 + 1 then (maxUint64, some .ErrRange)
      else
        let n10 := (n * 10) % 2 ^ 64
        let n1 := (n10 + d.val) % 2 ^ 64
        if n1 < n10 ∨ n1 > maxUint64 then (maxUint64, some .ErrRange)
        else parseUintLoop rest n1

/-- Function `strconv.ParseUint(s, 10, 0)`. -/
def ParseUint (s : GoString) : Nat × Option NumError :=
  if s = [] then (0, some .ErrSyntax) else parseUintLoop s 0

/-- Function `strconv.ParseInt(s, 10, 0)`. -/
def ParseInt (s : GoString) : Int × Option NumError :=
  match s with
  | [] => (0, some .ErrSyntax)
  | c :: t =>
    let neg : Bool := c = 45
    let s1 : GoString := if c = 43 then t else if c = 45 then t else s
    let (un, err) := ParseUint s1
    if err = some .ErrSyntax then (0, err)
    else
      let cutoff : Nat := 2 ^ (intSize - 1)
      if !neg ∧ un ≥ cutoff then ((cutoff : Int) - 1, some .ErrRange)
      else if neg ∧ un > cutoff then (-(cutoff : Int), some .ErrRange)
      else (if neg then -(un : Int) else (un : Int), none)

/-- Function `strconv.Atoi`: the `int` and the error it returns. -/
def Atoi (s : GoString) : Int × Option NumError :=
  let sLen := s.length
  if intSize = 32 ∧ (0 < sLen ∧ sLen < 10) ∨ intSize = 64 ∧ (0 < sLen ∧ sLen < 19) then
    match s with
    | [] => (0, some .ErrSyntax)
    | c :: t =>
      let signed : Bool := c = 45 ∨ c = 43
      let s1 : GoString := if signed then t else s
      if signed ∧ s1.length < 1 then (0, some .ErrSyntax)
      else
        match atoiFast s1 0 with
        | none => (0, some .ErrSyntax)
        | some n => (if c = 45 then -n else n, none)
  else ParseInt s

/-! ## Decimal numerals

The reading of a byte string as a decimal numeral, written without reference
to the parsing loops above, to state what `Atoi` returns. -/

/-- The byte is one of `0` to `9`. -/
def isDecimalDigit (b : Byte) : Bool := 48 ≤ b ∧ b ≤ 57

/-- The string without its leading `+` or `-`, when it has one. -/
def withoutSign : GoString → GoString
  | [] => []
  | c :: t => if c = 43 ∨ c = 45 then t else c :: t

/-- The number written by the digits `ds` after the digits of `n`. -/
def decimalFrom (n : Nat) (ds : GoString) : Nat :=
  ds.foldl (fun acc b => acc * 10 + (b.val - 48)) n

/-- The number the leading digits of `s` write: 0 when there is none. -/
def leadingValue (s : GoString) : Nat :=
  decimalFrom 0 (s.takeWhile isDecimalDigit)

/-! ## net/url and net/http form parsing (Go standard library) -/

/-- Type `url.Values`, as the list of its (key, value) pairs in the order they
were added; the values of one key keep their order. -/
abbrev Values := List (GoString × GoString)

/-- Helper `ishex` of net/url. -/
def ishex (c : Byte) : Bool :=
  (48 ≤ c ∧ c ≤ 57) ∨ (97 ≤ c ∧ c ≤ 102) ∨ (65 ≤ c ∧ c ≤ 70)

/-- Helper `unhex` of net/url. -/
def unhex (c : Byte) : Byte :=
  if 48 ≤ c ∧ c ≤ 57 then c - 48
  else if 97 ≤ c ∧ c ≤ 102 then c - 97 + 10
  else if 65 ≤ c ∧ c ≤ 70 then c - 65 + 10
  else 0

/-- First pass of `unescape`: every `%` is followed by two hexadecimal digits. -/
def escapesOK : GoString → Bool
  | [] => true
  | c :: rest =>
    if c = 37 then
      match rest with
      | a :: b :: rest2 => ishex a && ishex b && escapesOK rest2
      | _ => false
    else escapesOK rest

/-- Second pass of `unescape` in query-component mode: `%XX` becomes the byte
`XX` and `+` a space. -/
def unescapeBytes : GoString → GoString
  | [] => []
  | c :: rest =>
    if c = 37 then
      match rest with
      | a :: b :: rest2 => Fin.ofNat ((unhex a).val * 16 ||| (unhex b).val) :: unescapeBytes rest2
      | _ => []
    else if c = 43 then 32 :: unescapeBytes rest
    else c :: unescapeBytes rest

/-- Function `url.QueryUnescape`; `none` is an `EscapeError`. -/
def QueryUnescape (s : GoString) : Option GoString :=
  if escapesOK s then some (unescapeBytes s) else none

/-- Function `strings.Cut(s, sep)` for a one-byte separator: the text before
and after its first occurrence, all of `s` and nothing when it does not occur. -/
def cut (sep : Byte) : GoString → GoString × GoString
  | [] => ([], [])
  | c :: rest => if c = sep then ([], rest) else ((cut sep rest).1.cons c, (cut sep rest).2)

/-- The pieces `strings.Cut(query, "&")` yields when applied over and over, as
the loop of `parseQuery` does. -/
def splitOn (sep : Byte) : GoString → List GoString
  | [] => [[]]
  | c :: rest =>
    if c = sep then [] :: splitOn sep rest
    else
      match splitOn sep rest with
      | [] => [[c]]
      | piece :: pieces => (c :: piece) :: pieces

/-- One turn of the loop of `parseQuery` on the piece `key`: the values and the
error flag after it. -/
def parseQueryStep (acc : Values × Bool) (key : GoString) : Values × Bool :=
  if 59 ∈ key then (acc.1, true)
  else if key = [] then acc
  else
    let kv := cut 61 key
    match QueryUnescape kv.1 with
    | none => (acc.1, true)
    | some k =>
      match QueryUnescape kv.2 with
      | none => (acc.1, true)
      | some v => (acc.1 ++ [(k, v)], acc.2)

/-- Function `url.ParseQuery`: the values found and whether an error is
returned with them. -/
def ParseQuery (query : GoString) : Values × Bool :=
  (splitOn 38 query).foldl parseQueryStep ([], false)

/-- The fields of an `*http.Request` the handlers read. -/
structure Request where
  /-- Field `r.Method`. -/
  Method : String
  /-- Field `r.URL.RawQuery`. -/
  RawQuery : GoString
  /-- The Content-Type header as `mime.ParseMediaType` reads it: the media
  type and whether an error comes with it; `none` when the header is absent
  or empty. -/
  ContentType : Option (String × Bool)
  /-- Field `r.Body`: `none` for a nil body; otherwise what `io.ReadAll`
  yields, `none` for a read error. A request that arrives through the server
  always has a body, empty when the client sent none. -/
  Body : Option (Option GoString)
  /-- The route variables, `mux.Vars(r)`. -/
  Vars : String → GoString

/-- The form size `parsePostForm` accepts: `10 << 20` bytes. -/
def maxFormSize : Nat := 10 * 2 ^ 20

/-- Function `parsePostForm` of net/http: the values (`none` for nil) and
whether an error is returned. A nil body is the error `missing form body`; an
absent Content-Type counts as `application/octet-stream`; only a URL-encoded
body is read and parsed. -/
def parsePostForm (r : Request) : Option Values × Bool :=
  match r.Body with
  | none => (none, true)
  | some body =>
    let ct : String × Bool :=
      match r.ContentType with
      | none => ("application/octet-stream", false)
      | some parsed => parsed
    if ct.1 = "application/x-www-form-urlencoded" then
      match body with
      | none => (none, true)
      | some b =>
        if b.length > maxFormSize then (none, true)
        else (some (ParseQuery b).1, ct.2 || (ParseQuery b).2)
    else (none, ct.2)

/-- Method `(*Request).ParseForm` on a request whose `Form` and `PostForm` are
still nil: the resulting `r.Form` and whether an error is returned. -/
def ParseForm (r : Request) : Values × Bool :=
  let post : Option Values × Bool :=
    if r.Method = "POST" ∨ r.Method = "PUT" ∨ r.Method = "PATCH" then parsePostForm r
    else (none, false)
  let postForm : Values := post.1.getD []
  let query := ParseQuery r.RawQuery
  (postForm ++ query.1, post.2 || query.2)

/-- Method `(*Request).FormValue` once `ParseForm` has run: the first value
of the key, the empty string when there is none. -/
def FormValue (form : Values) (key : GoString) : GoString :=
  match form.find? (fun kv => kv.1 = key) with
  | some kv => kv.2
  | none => []

/-! ## The store -/

/-- A row of `users`. -/
structure UserRow where
  id : Int
  username : String
  deriving DecidableEq, Repr

/-- The value `to_tsvector(config, document)`, kept as the call that makes it. -/
structure TsVector where
  config : String
  document : GoString
  deriving DecidableEq, Repr

/-- A row of `messages`. -/
structure MessageRow where
  id : Int
  sender_id : Int
  chat_id : Int
  content : GoString
  sent_at : Nat
  full_text_search : TsVector
  deriving DecidableEq, Repr

/-- A row of `audit_logs`; `user_id` is `none` for SQL NULL. -/
structure AuditRow where
  action : String
  user_id : Option Int
  target_type : String
  target_id : Int
  created_at : Nat
  deriving DecidableEq, Repr

/-- The three tables, each as the list of its rows in the order the store
scans them; an INSERT appends. -/
structure DB where
  users : List UserRow
  messages : List MessageRow
  audit_logs : List AuditRow
  deriving DecidableEq, Repr

/-- Go struct `Message`. -/
structure Message where
  ID : Int
  Sender : String
  Content : GoString
  SentAt : Nat
  deriving DecidableEq, Repr

/-- Go struct `AuditLog`. -/
structure AuditLog where
  Action : String
  Username : String
  TargetType : String
  TargetID : Int
  CreatedAt : Nat
  deriving DecidableEq, Repr

/-- An argument bound to a statement parameter: a Go `int` or a Go `string`. -/
inductive Arg where
  | int (n : Int)
  | text (s : GoString)
  deriving DecidableEq, Repr

/-- A statement a handler sends to `dbpool`, with its arguments. -/
inductive Stmt where
  /-- The SELECT of `viewMessages`, with `$1`. -/
  | selectMessages (chatID : GoString)
  /-- The SELECT of `viewLogs`. -/
  | selectLogs
  /-- The INSERT into `messages` of `addMessage`, with `$1`, `$2`, `$3`. -/
  | insertMessage (senderID chatID : Int) (content : GoString)
  /-- An INSERT into `audit_logs`: the action, `user_id`, target kind and
  the argument for `target_id`. -/
  | insertAudit (action : String) (user_id : Option Int) (target_type : String) (target_id : Arg)
  deriving DecidableEq, Repr

/-- Whether the statement is an INSERT. -/
def Stmt.writes : Stmt → Bool
  | .selectMessages _ => false
  | .selectLogs => false
  | .insertMessage _ _ _ => true
  | .insertAudit _ _ _ _ => true

/-- Whether the statement is an INSERT into `audit_logs`. -/
def Stmt.isAudit : Stmt → Bool
  | .insertAudit _ _ _ _ => true
  | _ => false

/-- What the world outside the handlers decides during one request. -/
structure Env where
  /-- How the store reads a text argument bound to an integer column; `none`
  when it rejects the text. -/
  int4in : GoString → Option Int
  /-- Call `dbpool.Query` returns an error. -/
  queryErr : Bool
  /-- The row stream of the SELECT fails once this many rows are delivered:
  `rows.Next` then returns false as it does at the end of the rows, and the
  failure is kept for `rows.Err`; `none` when the stream delivers every row. -/
  streamEnds : Option Nat
  /-- Call `rows.Scan` on the row of this index returns an error. -/
  scanErr : Nat → Bool
  /-- The INSERT into `messages`: the id that `RETURNING id` hands to `Scan`,
  `none` when `QueryRow(...).Scan` returns an error. -/
  inserted : Option Int
  /-- The `sent_at` the store gives the inserted message. -/
  sentAt : Nat
  /-- Call `dbpool.Exec` of the audit INSERT returns an error. -/
  execErr : Bool
  /-- The value of `now()` in the audit INSERT. -/
  now : Nat
  /-- Call `template.ParseFiles` on this path returns an error, and with it a
  nil template. -/
  parseFilesErr : String → Bool

/-- The integer the store takes an argument for. -/
def Env.asInt (env : Env) : Arg → Option Int
  | .int n => some n
  | .text s => env.int4in s

/-- Order of `ORDER BY m.sent_at`. -/
def bySentAt (a b : MessageRow × UserRow) : Prop := a.1.sent_at ≤ b.1.sent_at

instance : DecidableRel bySentAt :=
  fun a b => inferInstanceAs (Decidable (a.1.sent_at ≤ b.1.sent_at))

/-- Order of `ORDER BY a.created_at DESC`. -/
def byCreatedAtDesc (a b : AuditRow × Option UserRow) : Prop := b.1.created_at ≤ a.1.created_at

instance : DecidableRel byCreatedAtDesc :=
  fun a b => inferInstanceAs (Decidable (b.1.created_at ≤ a.1.created_at))

/-- Rows of `messages m JOIN users u ON u.id = m.sender_id` for one message. -/
def joinUsers (db : DB) (m : MessageRow) : List (MessageRow × UserRow) :=
  (db.users.filter (fun u => u.id = m.sender_id)).map (fun u => (m, u))

/-- The select list `m.id, u.username, m.content, m.sent_at`. -/
def messageOf (p : MessageRow × UserRow) : Message :=
  ⟨p.1.id, p.2.username, p.1.content, p.1.sent_at⟩

/-- Rows of the join of `viewMessages` that pass `WHERE m.chat_id = $1`. -/
def chatRows (db : DB) (chat : Int) : List (MessageRow × UserRow) :=
  (db.messages.flatMap (joinUsers db)).filter (fun p => p.1.chat_id = chat)

/-- The SELECT of `viewMessages`. Rows with equal `sent_at` stay in the order
the store scanned them, SQL leaves their order open. -/
def selectMessages (db : DB) (chat : Int) : List Message :=
  ((chatRows db chat).insertionSort bySentAt).map messageOf

/-- Rows of `audit_logs a LEFT JOIN users u ON a.user_id = u.id` for one
audit row. -/
def leftJoinUsers (db : DB) (a : AuditRow) : List (AuditRow × Option UserRow) :=
  match db.users.filter (fun u => a.user_id = some u.id) with
  | [] => [(a, none)]
  | u :: us => (u :: us).map (fun v => (a, some v))

/-- The select list `a.action, COALESCE(u.username, 'Гість'), a.target_type,
a.target_id, a.created_at`. -/
def auditLogOf (p : AuditRow × Option UserRow) : AuditLog :=
  ⟨p.1.action, (p.2.map UserRow.username).getD "Гість", p.1.target_type, p.1.target_id,
    p.1.created_at⟩

/-- Rows of the SELECT of `viewLogs` before the select list is applied:
joined, ordered, cut by `LIMIT 50`. -/
def recentRows (db : DB) : List (AuditRow × Option UserRow) :=
  ((db.audit_logs.flatMap (leftJoinUsers db)).insertionSort byCreatedAtDesc).take 50

/-- The SELECT of `viewLogs`. -/
def selectLogs (db : DB) : List AuditLog :=
  (recentRows db).map auditLogOf

/-- The INSERT into `messages`, once it succeeds with the given id. -/
def insertMessageRow (db : DB) (id senderID chatID : Int) (content : GoString) (sentAt : Nat) :
    DB :=
  { db with messages := db.messages ++ [⟨id, senderID, chatID, content, sentAt, ⟨"simple", content⟩⟩] }

/-- Call `dbpool.Exec` of an INSERT into `audit_logs`: the store afterwards. A
failing statement leaves it as it was. -/
def execAudit (env : Env) (db : DB) (action : String) (user_id : Option Int)
    (target_type : String) (target_id : Arg) : DB :=
  if env.execErr then db
  else
    match env.asInt target_id with
    | none => db
    | some t => { db with audit_logs := db.audit_logs ++ [⟨action, user_id, target_type, t, env.now⟩] }

/-- Call `dbpool.Query` of the SELECT of `viewMessages`: the rows of the
statement, `none` when `Query` returns an error. A parameter the store
cannot read as an integer is not an error of `Query`: the store rejects the
statement when it runs, the row stream has no row, and the rejection is kept
for `rows.Err`. -/
def queryMessages (env : Env) (db : DB) (chatID : GoString) : Option (List Message) :=
  if env.queryErr then none
  else
    match env.int4in chatID with
    | none => some []
    | some chat => some (selectMessages db chat)

/-- Call `dbpool.Query` of the SELECT of `viewLogs`: the rows, `none` for an error. -/
def queryLogs (env : Env) (db : DB) : Option (List AuditLog) :=
  if env.queryErr then none else some (selectLogs db)

/-- The loop over `rows.Next()` from the row of index `i`, which scans each
row and appends it: the slice built, `none` when a `Scan` returns an error.
The loop ends at the last row and also where the stream fails; the handlers
never read `rows.Err`, so the two ends look the same to them. -/
def scanRows {α : Type} (streamEnds : Option Nat) (scanErr : Nat → Bool) :
    List α → Nat → Option (List α)
  | [], _ => some []
  | row :: rest, i =>
    if streamEnds = some i then some []
    else if scanErr i then none
    else
      match scanRows streamEnds scanErr rest (i + 1) with
      | none => none
      | some scanned => some (row :: scanned)

/-! ## The handlers -/

/-- Constant `http.StatusSeeOther`. -/
def StatusSeeOther : Nat := 303

/-- Constant `http.StatusBadRequest`. -/
def StatusBadRequest : Nat := 400

/-- Constant `http.StatusInternalServerError`. -/
def StatusInternalServerError : Nat := 500

/-- The value a template is executed on. -/
inductive Data where
  | messages (list : List Message)
  | logs (list : List AuditLog)
  deriving DecidableEq, Repr

/-- What a handler does to its `http.ResponseWriter`. -/
inductive Response where
  /-- Call `http.Error(w, body, code)`. -/
  | error (body : String) (code : Nat)
  /-- Call `http.Redirect(w, r, location, code)`. -/
  | redirect (location : String) (code : Nat)
  /-- Call `tmpl.Execute(w, data)` on the template parsed from the file. -/
  | page (file : String) (data : Data)
  /-- Call `tmpl.Execute` on a nil template: the handler stops in a nil
  dereference and nothing is written. -/
  | aborted
  deriving DecidableEq, Repr

/-- One run of a handler: the response, the store afterwards and the
statements sent to it, in order. -/
structure Outcome where
  response : Response
  store : DB
  issued : List Stmt
  deriving DecidableEq, Repr

/-- Handler `viewMessages` (main.go, lines 35 to 65). -/
def viewMessages (env : Env) (db : DB) (r : Request) : Outcome :=
  let chatID := r.Vars "chatId"
  match queryMessages env db chatID with
  | none => ⟨.error "DB error" StatusInternalServerError, db, [.selectMessages chatID]⟩
  | some rows =>
    match scanRows env.streamEnds env.scanErr rows 0 with
    | none => ⟨.error "Scan error" StatusInternalServerError, db, [.selectMessages chatID]⟩
    | some messages =>
      if env.parseFilesErr "templates/index.html" then
        ⟨.aborted, db, [.selectMessages chatID]⟩
      else
        ⟨.page "templates/index.html" (.messages messages),
          execAudit env db "view_messages" none "chat" (.text chatID),
          [.selectMessages chatID, .insertAudit "view_messages" none "chat" (.text chatID)]⟩

/-- Handler `viewLogs` (main.go, lines 68 to 92). -/
def viewLogs (env : Env) (db : DB) (_r : Request) : Outcome :=
  match queryLogs env db with
  | none => ⟨.error "Log error" StatusInternalServerError, db, [.selectLogs]⟩
  | some rows =>
    match scanRows env.streamEnds env.scanErr rows 0 with
    | none => ⟨.error "Log scan error" StatusInternalServerError, db, [.selectLogs]⟩
    | some logs =>
      if env.parseFilesErr "templates/logs.html" then ⟨.aborted, db, [.selectLogs]⟩
      else ⟨.page "templates/logs.html" (.logs logs), db, [.selectLogs]⟩

/-- Handler `addMessage` (main.go, lines 95 to 120). -/
def addMessage (env : Env) (db : DB) (r : Request) : Outcome :=
  let form := ParseForm r
  if form.2 then ⟨.error "Parse error" StatusBadRequest, db, []⟩
  else
    let senderID := (Atoi (FormValue form.1 (utf8 "sender_id"))).1
    let chatID := (Atoi (FormValue form.1 (utf8 "chat_id"))).1
    let content := FormValue form.1 (utf8 "content")
    match env.inserted with
    | none =>
      ⟨.error "DB insert error" StatusInternalServerError, db,
        [.insertMessage senderID chatID content]⟩
    | some messageID =>
      let db1 := insertMessageRow db messageID senderID chatID content env.sentAt
      ⟨.redirect "/chat/1" StatusSeeOther,
        execAudit env db1 "add_message" (some senderID) "message" (.int messageID),
        [.insertMessage senderID chatID content,
          .insertAudit "add_message" (some senderID) "message" (.int messageID)]⟩

/-! ## Sample requests, stores and environments -/

/-- A store reading of text as a decimal integer, for the sample environments. -/
def decimal (s : GoString) : Option Int :=
  if (Atoi s).2 = none then some (Atoi s).1 else none

/-- An environment in which nothing fails: the message INSERT returns id 7. -/
def calmEnv : Env :=
  { int4in := decimal, queryErr := false, streamEnds := none, scanErr := fun _ => false,
    inserted := some 7,
    sentAt := 100, execErr := false, now := 101, parseFilesErr := fun _ => false }

/-- As `calmEnv`, but the audit INSERT fails. -/
def lostAuditEnv : Env := { calmEnv with execErr := true }

/-- As `calmEnv`, but no template file parses. -/
def noTemplateEnv : Env := { calmEnv with parseFilesErr := fun _ => true }

/-- As `calmEnv`, but the store rejects the message INSERT. -/
def rejectingEnv : Env := { calmEnv with inserted := none }

/-- As `calmEnv`, but the row stream fails after its first row. -/
def brokenStreamEnv : Env := { calmEnv with streamEnds := some 1 }

/-- An environment in which every statement fails. -/
def downEnv : Env := { calmEnv with queryErr := true, inserted := none, execErr := true }

/-- A POST whose body is the given URL-encoded form. -/
def formRequest (body : String) : Request :=
  { Method := "POST", RawQuery := [],
    ContentType := some ("application/x-www-form-urlencoded", false),
    Body := some (some (utf8 body)), Vars := fun _ => [] }

/-- The POST of scenario S2. -/
def sendRequest : Request := formRequest "sender_id=3&chat_id=1&content=hello"

/-- A POST whose `sender_id` is one more than the largest `int`. -/
def bigSenderRequest : Request :=
  formRequest "sender_id=9223372036854775808&chat_id=1&content=hello"

/-- A POST that carries no body and no Content-Type header, as the server
hands it to the handler: the body reads as empty. -/
def emptyPost : Request :=
  { Method := "POST", RawQuery := [], ContentType := none, Body := some (some []),
    Vars := fun _ => [] }

/-- A POST whose `Body` field is nil. -/
def nilBodyPost : Request := { emptyPost with Body := none }

/-- A GET of `/chat/` followed by the given text. -/
def chatRequest (chatId : String) : Request :=
  { Method := "GET", RawQuery := [], ContentType := none, Body := some (some []),
    Vars := fun name => if name = "chatId" then utf8 chatId else [] }

/-- A store with one user, who sent two messages to chat 1 at the same
instant, the one with the larger id scanned first; two audit entries. -/
def sampleDB : DB :=
  { users := [⟨3, "ann"⟩],
    messages :=
      [⟨2, 3, 1, utf8 "second", 5, ⟨"simple", utf8 "second"⟩⟩,
       ⟨1, 3, 1, utf8 "first", 5, ⟨"simple", utf8 "first"⟩⟩],
    audit_logs :=
      [⟨"add_message", some 3, "message", 1, 5⟩,
       ⟨"view_messages", none, "chat", 1, 8⟩] }

/-! ## Helper lemmas -/

theorem scanRows_ok {α : Type} (scanErr : Nat → Bool) (h : ∀ i, scanErr i = false) :
    ∀ (rows : List α) (i : Nat), scanRows none scanErr rows i = some rows := by
  intro rows
  induction rows with
  | nil => intro i; rfl
  | cons row rest ih => intro i; simp [scanRows, h, ih]

theorem scanRows_some {α : Type} (streamEnds : Option Nat) (scanErr : Nat → Bool)
    (h : ∀ i, scanErr i = false) :
    ∀ (rows : List α) (i : Nat), ∃ scanned, scanRows streamEnds scanErr rows i = some scanned := by
  intro rows
  induction rows with
  | nil => intro i; exact ⟨[], rfl⟩
  | cons row rest ih =>
    intro i
    obtain ⟨scanned, hscanned⟩ := ih (i + 1)
    unfold scanRows
    by_cases hend : streamEnds = some i
    · exact ⟨[], by rw [if_pos hend]⟩
    · exact ⟨row :: scanned, by rw [if_neg hend, h i, hscanned]; rfl⟩

/-! ## Lemmas on strconv -/

set_option maxRecDepth 100000 in
theorem byte_fast_digit : ∀ c : Byte, (c - 48 > 9) ↔ isDecimalDigit c = false := by
  decide

set_option maxRecDepth 100000 in
theorem byte_digit_val : ∀ c : Byte, isDecimalDigit c = true → (c - 48).val = c.val - 48 := by
  decide

set_option maxRecDepth 100000 in
theorem byte_digit_range : ∀ c : Byte, (48 ≤ c ∧ c ≤ 57) ↔ isDecimalDigit c = true := by
  decide

set_option maxRecDepth 100000 in
theorem byte_digit_small : ∀ c : Byte, isDecimalDigit c = true → (c - 48).val ≤ 9 := by
  decide

set_option maxRecDepth 100000 in
theorem byte_letter_large :
    ∀ c : Byte, 97 ≤ lower c ∧ lower c ≤ 122 → lower c - 97 + 10 ≥ 10 := by
  decide

theorem decimalFrom_cons (n : Nat) (b : Byte) (ds : GoString) :
    decimalFrom n (b :: ds) = decimalFrom (n * 10 + (b.val - 48)) ds := rfl

theorem decimalFrom_ge (ds : GoString) : ∀ n : Nat, n ≤ decimalFrom n ds := by
  induction ds with
  | nil => intro n; exact Nat.le_refl n
  | cons b ds ih =>
    intro n
    rw [decimalFrom_cons]
    have := ih (n * 10 + (b.val - 48))
    omega

theorem decimalFrom_lt (ds : GoString) (hd : ∀ b ∈ ds, isDecimalDigit b = true) :
    ∀ n : Nat, decimalFrom n ds + 1 ≤ (n + 1) * 10 ^ ds.length := by
  induction ds with
  | nil => intro n; simp [decimalFrom]
  | cons b ds ih =>
    intro n
    rw [decimalFrom_cons]
    have hb := byte_digit_small b (hd b (List.mem_cons_self b ds))
    rw [byte_digit_val b (hd b (List.mem_cons_self b ds))] at hb
    have h1 := ih (fun x hx => hd x (List.mem_cons_of_mem b hx)) (n * 10 + (b.val - 48))
    have h3 : n * 10 + (b.val - 48) + 1 ≤ (n + 1) * 10 := by omega
    calc decimalFrom (n * 10 + (b.val - 48)) ds + 1
        ≤ (n * 10 + (b.val - 48) + 1) * 10 ^ ds.length := h1
      _ ≤ ((n + 1) * 10) * 10 ^ ds.length := Nat.mul_le_mul_right _ h3
      _ = (n + 1) * 10 ^ (b :: ds).length := by rw [List.length_cons, Nat.pow_succ]; ring

theorem leadingValue_lt (s : GoString) : leadingValue s + 1 ≤ 10 ^ s.length := by
  have h := decimalFrom_lt (s.takeWhile isDecimalDigit)
    (fun b hb => List.mem_takeWhile_imp hb) 0
  have hlen : (s.takeWhile isDecimalDigit).length ≤ s.length :=
    (List.takeWhile_sublist _).length_le
  have hpow : 10 ^ (s.takeWhile isDecimalDigit).length ≤ 10 ^ s.length :=
    Nat.pow_le_pow_right (by decide) hlen
  simp only [Nat.zero_add, Nat.one_mul] at h
  exact Nat.le_trans h hpow

theorem takeWhile_digit_cons (b : Byte) (ds : GoString) :
    (b :: ds).takeWhile isDecimalDigit
      = if isDecimalDigit b = true then b :: ds.takeWhile isDecimalDigit else [] := by
  simp [List.takeWhile_cons]

theorem atoiFast_reading (ds : GoString) : ∀ n : Nat,
    atoiFast ds (n : Int)
      = if ds.takeWhile isDecimalDigit = ds then some ((decimalFrom n ds : Nat) : Int)
        else none := by
  induction ds with
  | nil => intro n; simp [atoiFast, decimalFrom]
  | cons b ds ih =>
    intro n
    rw [takeWhile_digit_cons]
    unfold atoiFast
    simp only []
    by_cases hb : isDecimalDigit b = true
    · have hfast : ¬ (b - 48 > 9) := by
        rw [byte_fast_digit b, hb]; simp
      have hcast : (n : Int) * 10 + (((b - 48).val : Nat) : Int)
          = ((n * 10 + (b.val - 48) : Nat) : Int) := by
        rw [byte_digit_val b hb]; push_cast; rfl
      rw [if_neg hfast, hcast, ih, decimalFrom_cons]
      simp [hb]
    · have hfast : b - 48 > 9 := by
        rw [byte_fast_digit b]; simpa using hb
      simp [hfast, hb]

theorem parseUintLoop_reading (ds : GoString) : ∀ n : Nat, n ≤ maxUint64 →
    parseUintLoop ds n
      = if decimalFrom n (ds.takeWhile isDecimalDigit) ≤ maxUint64 then
          (if ds.takeWhile isDecimalDigit = ds then (decimalFrom n ds, none)
            else (0, some .ErrSyntax))
        else (maxUint64, some .ErrRange) := by
  induction ds with
  | nil => intro n hn; simp [parseUintLoop, decimalFrom, hn]
  | cons b ds ih =>
    intro n hn
    rw [takeWhile_digit_cons]
    unfold parseUintLoop
    simp only []
    by_cases hb : isDecimalDigit b = true
    · have hrange : 48 ≤ b ∧ b ≤ 57 := (byte_digit_range b).mpr hb
      have hsmall := byte_digit_small b hb
      have hval := byte_digit_val b hb
      have hnot10 : ¬ (b - 48 ≥ 10) := by
        rw [ge_iff_le, Fin.le_def]
        have h10 : ((10 : Fin 256) : Nat) = 10 := rfl
        rw [h10]; omega
      simp only [hrange, and_self, if_true, hnot10, if_false, hb, decimalFrom_cons]
      have hge := decimalFrom_ge (ds.takeWhile isDecimalDigit) (n * 10 + (b.val - 48))
      by_cases hcut : n ≥ maxUint64 / 10 + 1
      · have hbig : ¬ decimalFrom (n * 10 + (b.val - 48)) (ds.takeWhile isDecimalDigit)
            ≤ maxUint64 := by
          simp only [maxUint64] at hcut ⊢; omega
        simp [hcut, hbig]
      · rw [if_neg hcut]
        have hn10 : n * 10 % 2 ^ 64 = n * 10 := by
          apply Nat.mod_eq_of_lt
          simp only [maxUint64] at hcut; omega
        rw [hn10, hval]
        by_cases hover : n * 10 + (b.val - 48) < 2 ^ 64
        · have hmod : (n * 10 + (b.val - 48)) % 2 ^ 64 = n * 10 + (b.val - 48) :=
            Nat.mod_eq_of_lt hover
          have hok : ¬ (n * 10 + (b.val - 48) < n * 10 ∨ n * 10 + (b.val - 48) > maxUint64) := by
            simp only [maxUint64]; omega
          rw [hmod, if_neg hok, ih _ (by simp only [maxUint64]; omega)]
          by_cases hv : decimalFrom (n * 10 + (b.val - 48)) (ds.takeWhile isDecimalDigit)
              ≤ maxUint64
          · simp [hv]
          · simp [hv]
        · have hmod : (n * 10 + (b.val - 48)) % 2 ^ 64 = n * 10 + (b.val - 48) - 2 ^ 64 := by
            rw [Nat.mod_eq_sub_mod (by omega), Nat.mod_eq_of_lt (by omega)]
          have hbad : (n * 10 + (b.val - 48)) % 2 ^ 64 < n * 10
              ∨ (n * 10 + (b.val - 48)) % 2 ^ 64 > maxUint64 := by
            left; rw [hmod]; omega
          have hbig : ¬ decimalFrom (n * 10 + (b.val - 48)) (ds.takeWhile isDecimalDigit)
              ≤ maxUint64 := by
            simp only [maxUint64]; omega
          rw [if_pos hbad, if_neg hbig]
    · have hrange : ¬ (48 ≤ b ∧ b ≤ 57) := fun h => hb ((byte_digit_range b).mp h)
      have hzero : decimalFrom n [] ≤ maxUint64 := hn
      simp only [hrange, if_false, hb, Bool.false_eq_true, hzero, if_true]
      by_cases hletter : 97 ≤ lower b ∧ lower b ≤ 122
      · have hlarge := byte_letter_large b hletter
        simp [hletter, hlarge]
      · simp [hletter]

theorem ParseUint_reading (body : GoString) :
    ParseUint body
      = if body = [] then (0, some .ErrSyntax)
        else if leadingValue body ≤ maxUint64 then
          (if body.takeWhile isDecimalDigit = body then (leadingValue body, none)
            else (0, some .ErrSyntax))
        else (maxUint64, some .ErrRange) := by
  unfold ParseUint
  by_cases hnil : body = []
  · simp [hnil]
  · rw [if_neg hnil, if_neg hnil, parseUintLoop_reading body 0 (Nat.zero_le _)]
    by_cases hall : body.takeWhile isDecimalDigit = body
    · simp only [leadingValue, hall]
    · simp [leadingValue, hall]

theorem ParseInt_reading (c : Byte) (t : GoString) :
    ParseInt (c :: t)
      = if withoutSign (c :: t) = [] then (0, some .ErrSyntax)
        else if leadingValue (withoutSign (c :: t)) ≤ maxUint64 then
          (if (withoutSign (c :: t)).takeWhile isDecimalDigit = withoutSign (c :: t) then
            (if c = 45 then
              (if leadingValue (withoutSign (c :: t)) ≤ 2 ^ 63 then
                (-(leadingValue (withoutSign (c :: t)) : Int), none)
               else (minInt, some .ErrRange))
             else
              (if leadingValue (withoutSign (c :: t)) < 2 ^ 63 then
                ((leadingValue (withoutSign (c :: t)) : Int), none)
               else (maxInt, some .ErrRange)))
           else (0, some .ErrSyntax))
        else (if c = 45 then minInt else maxInt, some .ErrRange) := by
  have hbody : (if c = 43 then t else if c = 45 then t else c :: t) = withoutSign (c :: t) := by
    unfold withoutSign
    by_cases h43 : c = 43
    · simp [h43]
    · by_cases h45 : c = 45
      · simp [h45]
      · simp [h43, h45]
  simp only [ParseInt, hbody, ParseUint_reading]
  generalize withoutSign (c :: t) = body
  generalize leadingValue body = v
  by_cases hnil : body = []
  · simp [hnil]
  · simp only [hnil, if_false]
    by_cases hv : v ≤ maxUint64
    · simp only [hv, if_true]
      by_cases hall : body.takeWhile isDecimalDigit = body
      · simp only [hall, if_true]
        by_cases hneg : c = 45
        · simp only [hneg, decide_True, Bool.not_true, Bool.false_eq_true, false_and, if_false,
            true_and, if_true, intSize]
          simp only [minInt]
          norm_num
          split_ifs <;> first | rfl | contradiction | (exfalso; omega)
        · simp only [hneg, decide_False, Bool.not_false, true_and, false_and, if_false, intSize]
          simp only [maxInt]
          norm_num
          split_ifs <;> first | rfl | contradiction | (exfalso; omega)
      · simp [hall]
    · simp only [hv, if_false]
      by_cases hneg : c = 45
      · simp [hneg, intSize, maxUint64, minInt]
      · simp [hneg, intSize, maxUint64, maxInt]

theorem Atoi_long (s : GoString) (h : ¬ (0 < s.length ∧ s.length < 19)) : Atoi s = ParseInt s := by
  unfold Atoi
  simp only []
  rw [if_neg]
  simp only [intSize]
  rintro (⟨h32, _⟩ | ⟨_, h64⟩)
  · exact absurd h32 (by decide)
  · exact h h64

theorem Atoi_short (c : Byte) (t : GoString) (hlen : (c :: t).length < 19) :
    Atoi (c :: t)
      = if withoutSign (c :: t) = [] then (0, some .ErrSyntax)
        else if (withoutSign (c :: t)).takeWhile isDecimalDigit = withoutSign (c :: t) then
          (if c = 45 then -(leadingValue (withoutSign (c :: t)) : Int)
            else (leadingValue (withoutSign (c :: t)) : Int), none)
        else (0, some .ErrSyntax) := by
  have hcond : intSize = 32 ∧ (0 < (c :: t).length ∧ (c :: t).length < 10)
      ∨ intSize = 64 ∧ (0 < (c :: t).length ∧ (c :: t).length < 19) :=
    Or.inr ⟨rfl, by simp, hlen⟩
  have hbody : (if decide (c = 45 ∨ c = 43) = true then t else c :: t) = withoutSign (c :: t) := by
    unfold withoutSign
    by_cases h43 : c = 43
    · simp [h43]
    · by_cases h45 : c = 45
      · simp [h45]
      · simp [h43, h45]
  have hempty : (decide (c = 45 ∨ c = 43) = true ∧ (withoutSign (c :: t)).length < 1)
      ↔ withoutSign (c :: t) = [] := by
    unfold withoutSign
    by_cases hs : c = 43 ∨ c = 45
    · have hs' : c = 45 ∨ c = 43 := hs.symm
      simp only [hs, hs', if_true, decide_True, true_and]
      cases t <;> simp
    · have hs' : ¬ (c = 45 ∨ c = 43) := fun h => hs h.symm
      simp [hs, hs']
  unfold Atoi
  simp only []
  rw [if_pos hcond]
  simp only [hbody]
  have hfast := atoiFast_reading (withoutSign (c :: t)) 0
  simp only [Nat.cast_zero] at hfast
  by_cases hnil : withoutSign (c :: t) = []
  · rw [if_pos (hempty.mpr hnil), if_pos hnil]
  · rw [if_neg (fun h => hnil (hempty.mp h)), if_neg hnil, hfast]
    by_cases hall : (withoutSign (c :: t)).takeWhile isDecimalDigit = withoutSign (c :: t)
    · simp only [hall, if_true, leadingValue]
    · simp only [hall, if_false]

/-- What `Atoi` returns, read off the field as a decimal numeral. -/
theorem Atoi_reading (field : GoString) :
    (withoutSign field = [] → Atoi field = (0, some .ErrSyntax)) ∧
    ((withoutSign field).takeWhile isDecimalDigit ≠ withoutSign field →
      leadingValue (withoutSign field) ≤ maxUint64 → Atoi field = (0, some .ErrSyntax)) ∧
    ((withoutSign field).takeWhile isDecimalDigit ≠ withoutSign field →
      field.length < 19 → Atoi field = (0, some .ErrSyntax)) ∧
    (withoutSign field ≠ [] →
      (withoutSign field).takeWhile isDecimalDigit = withoutSign field →
      (if field.head? = some 45 then leadingValue (withoutSign field) ≤ 2 ^ 63
        else leadingValue (withoutSign field) < 2 ^ 63) →
      Atoi field
        = (if field.head? = some 45 then -(leadingValue (withoutSign field) : Int)
            else (leadingValue (withoutSign field) : Int), none)) ∧
    (withoutSign field ≠ [] →
      ((withoutSign field).takeWhile isDecimalDigit = withoutSign field
        ∨ maxUint64 < leadingValue (withoutSign field)) →
      ¬ (if field.head? = some 45 then leadingValue (withoutSign field) ≤ 2 ^ 63
          else leadingValue (withoutSign field) < 2 ^ 63) →
      Atoi field = (if field.head? = some 45 then minInt else maxInt, some .ErrRange)) := by
  cases field with
  | nil =>
    refine ⟨fun _ => by decide, ?_, ?_, ?_, ?_⟩
    · intro h; exact absurd rfl h
    · intro h; exact absurd rfl h
    · intro h; exact absurd rfl h
    · intro h; exact absurd rfl h
  | cons c t =>
    have hbound := leadingValue_lt (withoutSign (c :: t))
    have hsub : (withoutSign (c :: t)).length ≤ (c :: t).length := by
      simp only [withoutSign]
      split_ifs <;> simp
    simp only [List.head?_cons, Option.some.injEq]
    by_cases hlen : (c :: t).length < 19
    · have hpow : 10 ^ (withoutSign (c :: t)).length ≤ 10 ^ 18 :=
        Nat.pow_le_pow_right (by decide) (by omega)
      have hsmall : leadingValue (withoutSign (c :: t)) < 2 ^ 63 := by
        have : (10 : Nat) ^ 18 < 2 ^ 63 := by norm_num
        omega
      rw [Atoi_short c t hlen]
      refine ⟨?_, ?_, ?_, ?_, ?_⟩
      · intro h; rw [if_pos h]
      · intro h _
        by_cases hnil : withoutSign (c :: t) = []
        · rw [if_pos hnil]
        · rw [if_neg hnil, if_neg h]
      · intro h _
        by_cases hnil : withoutSign (c :: t) = []
        · rw [if_pos hnil]
        · rw [if_neg hnil, if_neg h]
      · intro hnil hall _
        rw [if_neg hnil, if_pos hall]
      · intro _ _ hout
        exfalso
        apply hout
        split_ifs <;> omega
    · have hlong : ¬ (0 < (c :: t).length ∧ (c :: t).length < 19) := fun h => hlen h.2
      rw [Atoi_long _ hlong, ParseInt_reading]
      refine ⟨?_, ?_, ?_, ?_, ?_⟩
      · intro h; rw [if_pos h]
      · intro h hv
        by_cases hnil : withoutSign (c :: t) = []
        · rw [if_pos hnil]
        · rw [if_neg hnil, if_pos hv, if_neg h]
      · intro _ h; exact absurd h hlen
      · intro hnil hall hin
        have hv : leadingValue (withoutSign (c :: t)) ≤ maxUint64 := by
          simp only [maxUint64]
          split_ifs at hin <;> omega
        rw [if_neg hnil, if_pos hv, if_pos hall]
        by_cases hneg : c = 45
        · simp only [hneg, if_true] at hin ⊢
          rw [if_pos hin]
        · simp only [hneg, if_false] at hin ⊢
          rw [if_pos hin]
      · intro hnil hor hout
        rw [if_neg hnil]
        by_cases hv : leadingValue (withoutSign (c :: t)) ≤ maxUint64
        · have hall : (withoutSign (c :: t)).takeWhile isDecimalDigit = withoutSign (c :: t) := by
            rcases hor with h | h
            · exact h
            · exact absurd hv (by omega)
          rw [if_pos hv, if_pos hall]
          by_cases hneg : c = 45
          · simp only [hneg, if_true] at hout ⊢
            rw [if_neg hout]
          · simp only [hneg, if_false] at hout ⊢
            rw [if_neg hout]
        · rw [if_neg hv]

/-! ## The audit trail of the two audited handlers -/

/-- C1 (amended). When the form parses and the message INSERT returns id `M`,
`addMessage` sends exactly one audit INSERT, with action `add_message`, the
parsed sender as actor, target kind `message` and target id `M`; the audit
log gains exactly that entry when the audit INSERT succeeds and stays as it
was when it fails. -/
theorem addMessage_audit_entry (env : Env) (db : DB) (r : Request) (M : Int)
    (hform : (ParseForm r).2 = false) (hins : env.inserted = some M) :
    (addMessage env db r).issued.filter Stmt.isAudit
        = [.insertAudit "add_message" (some (Atoi (FormValue (ParseForm r).1 (utf8 "sender_id"))).1)
            "message" (.int M)] ∧
    (env.execErr = false →
      (addMessage env db r).store.audit_logs
        = db.audit_logs ++
          [⟨"add_message", some (Atoi (FormValue (ParseForm r).1 (utf8 "sender_id"))).1,
            "message", M, env.now⟩]) ∧
    (env.execErr = true → (addMessage env db r).store.audit_logs = db.audit_logs) := by
  refine ⟨?_, ?_, ?_⟩
  · simp [addMessage, hform, hins, Stmt.isAudit]
  · intro hexec
    simp [addMessage, hform, hins, execAudit, hexec, Env.asInt, insertMessageRow]
  · intro hexec
    simp [addMessage, hform, hins, execAudit, hexec, insertMessageRow]

/-- Witness of C1 (amended): the POST of scenario S2 in the calm environment. -/
theorem addMessage_audit_entry_witness :
    (addMessage calmEnv sampleDB sendRequest).store.audit_logs
      = sampleDB.audit_logs ++ [⟨"add_message", some 3, "message", 7, 101⟩] :=
  (addMessage_audit_entry calmEnv sampleDB sendRequest 7 (by decide) rfl).2.1 rfl

/-- C1 (as stated) fails: the form parses, the message INSERT succeeds with
id 7 and the response is the 303 redirect, yet the audit INSERT fails and the
audit log has no new entry. -/
theorem lost_audit_after_insert :
    (ParseForm sendRequest).2 = false ∧ lostAuditEnv.inserted = some 7 ∧
    (addMessage lostAuditEnv sampleDB sendRequest).response = .redirect "/chat/1" 303 ∧
    (addMessage lostAuditEnv sampleDB sendRequest).store.messages.length
      = sampleDB.messages.length + 1 ∧
    (addMessage lostAuditEnv sampleDB sendRequest).store.audit_logs = sampleDB.audit_logs := by
  decide

/-- C2 (amended). When the message query succeeds for the chat `c` the store
reads the route variable as, every row scan succeeds and the page template
parses, `viewMessages` sends exactly one audit INSERT, with action
`view_messages`, no actor, target kind `chat` and the route variable as
target; the audit log gains exactly the entry with target id `c` when that
INSERT succeeds and stays as it was when it fails. -/
theorem viewMessages_audit_entry (env : Env) (db : DB) (r : Request) (c : Int)
    (hquery : env.queryErr = false) (hchat : env.int4in (r.Vars "chatId") = some c)
    (hscan : ∀ i, env.scanErr i = false)
    (htmpl : env.parseFilesErr "templates/index.html" = false) :
    (viewMessages env db r).issued.filter Stmt.isAudit
        = [.insertAudit "view_messages" none "chat" (.text (r.Vars "chatId"))] ∧
    (env.execErr = false →
      (viewMessages env db r).store.audit_logs
        = db.audit_logs ++ [⟨"view_messages", none, "chat", c, env.now⟩]) ∧
    (env.execErr = true → (viewMessages env db r).store.audit_logs = db.audit_logs) := by
  have hrows : queryMessages env db (r.Vars "chatId") = some (selectMessages db c) := by
    simp [queryMessages, hquery, hchat]
  obtain ⟨messages, hmessages⟩ :=
    scanRows_some env.streamEnds env.scanErr hscan (selectMessages db c) 0
  refine ⟨?_, ?_, ?_⟩
  · simp [viewMessages, hrows, hmessages, htmpl, Stmt.isAudit]
  · intro hexec
    simp [viewMessages, hrows, hmessages, htmpl, execAudit, hexec, Env.asInt, hchat]
  · intro hexec
    simp [viewMessages, hrows, hmessages, htmpl, execAudit, hexec]

/-- Witness of C2 (amended): a view of chat 1 in the calm environment. -/
theorem viewMessages_audit_entry_witness :
    (viewMessages calmEnv sampleDB (chatRequest "1")).store.audit_logs
      = sampleDB.audit_logs ++ [⟨"view_messages", none, "chat", 1, 101⟩] :=
  (viewMessages_audit_entry calmEnv sampleDB (chatRequest "1") 1 rfl (by decide)
    (fun _ => rfl) rfl).2.1 rfl

/-- C2 (as stated) fails. With a failing audit INSERT the query and every scan
succeed and the page is rendered, yet the audit log has no new entry. With a
template file that does not parse the query and every scan succeed too, the
handler stops in `tmpl.Execute` on the nil template before it reaches the
audit INSERT, and the audit log has no new entry either. -/
theorem lost_audit_after_view :
    queryMessages lostAuditEnv sampleDB ((chatRequest "1").Vars "chatId")
      = some (selectMessages sampleDB 1) ∧
    (∀ i, lostAuditEnv.scanErr i = false) ∧
    (viewMessages lostAuditEnv sampleDB (chatRequest "1")).response
      = .page "templates/index.html" (.messages (selectMessages sampleDB 1)) ∧
    (viewMessages lostAuditEnv sampleDB (chatRequest "1")).store.audit_logs
      = sampleDB.audit_logs ∧
    queryMessages noTemplateEnv sampleDB ((chatRequest "1").Vars "chatId")
      = some (selectMessages sampleDB 1) ∧
    (∀ i, noTemplateEnv.scanErr i = false) ∧ noTemplateEnv.execErr = false ∧
    (viewMessages noTemplateEnv sampleDB (chatRequest "1")).response = .aborted ∧
    (viewMessages noTemplateEnv sampleDB (chatRequest "1")).store.audit_logs
      = sampleDB.audit_logs := by
  refine ⟨by decide, fun _ => rfl, by decide, by decide, by decide, fun _ => rfl, rfl,
    by decide, by decide⟩

/-- C3. The response of `addMessage` and of `viewMessages` is the same
whatever the outcome of the audit INSERT, and a message INSERT that succeeds
followed by an audit INSERT that fails still gives the 303 redirect. -/
theorem response_ignores_audit_outcome (env : Env) (db : DB) (r : Request) (b b' : Bool) :
    (addMessage { env with execErr := b } db r).response
      = (addMessage { env with execErr := b' } db r).response ∧
    (viewMessages { env with execErr := b } db r).response
      = (viewMessages { env with execErr := b' } db r).response ∧
    (∀ M : Int, (ParseForm r).2 = false → env.inserted = some M → env.execErr = true →
      (addMessage env db r).response = .redirect "/chat/1" 303) := by
  refine ⟨?_, ?_, ?_⟩
  · simp only [addMessage]
    split
    · rfl
    · split <;> rfl
  · have hq : ∀ flag : Bool, queryMessages { env with execErr := flag } db (r.Vars "chatId")
        = queryMessages env db (r.Vars "chatId") := fun _ => rfl
    simp only [viewMessages, hq]
    cases queryMessages env db (r.Vars "chatId") with
    | none => rfl
    | some rows =>
      simp only []
      cases scanRows env.streamEnds env.scanErr rows 0 with
      | none => rfl
      | some messages =>
        simp only []
        split <;> rfl
  · intro M hform hins _
    simp [addMessage, hform, hins, StatusSeeOther]

/-- Witness of C3: the POST of scenario S2 with a failing audit INSERT. -/
theorem response_ignores_audit_outcome_witness :
    (addMessage lostAuditEnv sampleDB sendRequest).response = .redirect "/chat/1" 303 :=
  (response_ignores_audit_outcome lostAuditEnv sampleDB sendRequest true false).2.2 7
    (by decide) rfl rfl

/-- What does hold when the primary call itself returns the error: a failing
message INSERT of `addMessage` gives 500 `DB insert error`, an error returned
by `Query` in `viewMessages` gives 500 `DB error`; in both the store is
unchanged and no audit INSERT is sent. -/
theorem returned_error_short_circuits (env : Env) (db : DB) (r : Request) :
    ((ParseForm r).2 = false → env.inserted = none →
      (addMessage env db r).response = .error "DB insert error" 500 ∧
      (addMessage env db r).store = db ∧
      ∀ s ∈ (addMessage env db r).issued, s.isAudit = false) ∧
    (env.queryErr = true →
      (viewMessages env db r).response = .error "DB error" 500 ∧
      (viewMessages env db r).store = db ∧
      ∀ s ∈ (viewMessages env db r).issued, s.writes = false) := by
  refine ⟨?_, ?_⟩
  · intro hform hins
    simp [addMessage, hform, hins, StatusInternalServerError, Stmt.isAudit]
  · intro hquery
    simp [viewMessages, queryMessages, hquery, StatusInternalServerError, Stmt.writes]

/-- C4 (defect of the code). A message query that fails after `Query` has
returned is not answered with 500 `DB error`, because `viewMessages` never
reads `rows.Err`. For `GET /chat/abc` the store rejects the chat id, `Query`
returns no error, the page is rendered with no message and the audit INSERT
is sent. When the row stream of chat 1 fails after its first row, the page is
rendered with one of the two messages, the audit INSERT is sent and the audit
log gains its entry. Only when `Query` itself returns the error, as with the
database down, is the answer 500 `DB error`. -/
theorem failed_query_is_rendered :
    downEnv.queryErr = true ∧
    (viewMessages downEnv sampleDB (chatRequest "1")).response = .error "DB error" 500 ∧
    calmEnv.queryErr = false ∧ calmEnv.int4in ((chatRequest "abc").Vars "chatId") = none ∧
    (viewMessages calmEnv sampleDB (chatRequest "abc")).response
      = .page "templates/index.html" (.messages []) ∧
    (viewMessages calmEnv sampleDB (chatRequest "abc")).issued
      = [.selectMessages (utf8 "abc"),
          .insertAudit "view_messages" none "chat" (.text (utf8 "abc"))] ∧
    brokenStreamEnv.queryErr = false ∧ brokenStreamEnv.streamEnds = some 1 ∧
    (viewMessages brokenStreamEnv sampleDB (chatRequest "1")).response
      = .page "templates/index.html" (.messages [⟨2, "ann", utf8 "second", 5⟩]) ∧
    (viewMessages brokenStreamEnv sampleDB (chatRequest "1")).store.audit_logs
      = sampleDB.audit_logs ++ [⟨"view_messages", none, "chat", 1, 101⟩] := by
  decide

/-- C8. Handler `viewLogs` leaves the store as it was and sends no INSERT,
whatever the outcome of the query, of the scans and of the template. -/
theorem viewLogs_never_writes (env : Env) (db : DB) (r : Request) :
    (viewLogs env db r).store = db ∧
    (viewLogs env db r).store.messages = db.messages ∧
    (viewLogs env db r).store.audit_logs = db.audit_logs ∧
    ∀ s ∈ (viewLogs env db r).issued, s.writes = false := by
  have hstore : (viewLogs env db r).store = db := by
    simp only [viewLogs]
    split
    · rfl
    · split
      · rfl
      · split <;> rfl
  have hissued : (viewLogs env db r).issued = [.selectLogs] := by
    simp only [viewLogs]
    split
    · rfl
    · split
      · rfl
      · split <;> rfl
  refine ⟨hstore, by rw [hstore], by rw [hstore], ?_⟩
  rw [hissued]
  simp [Stmt.writes]

/-- C10. When the form parses and the message INSERT succeeds, whatever the
form fields are, the response is the 303 redirect to `/chat/1`. -/
theorem addMessage_redirects_to_chat_1 (env : Env) (db : DB) (r : Request) (M : Int)
    (hform : (ParseForm r).2 = false) (hins : env.inserted = some M) :
    (addMessage env db r).response = .redirect "/chat/1" 303 := by
  simp [addMessage, hform, hins, StatusSeeOther]

/-- Witness of C10: a message posted to chat 2 is answered with `/chat/1`. -/
theorem addMessage_redirects_to_chat_1_witness :
    (addMessage calmEnv sampleDB (formRequest "sender_id=3&chat_id=2&content=hi")).response
      = .redirect "/chat/1" 303 :=
  addMessage_redirects_to_chat_1 calmEnv sampleDB
    (formRequest "sender_id=3&chat_id=2&content=hi") 7 (by decide) rfl

/-! ## What `addMessage` reads from the form -/

/-- C5 (amended). When the form parses, the first statement `addMessage` sends
is the message INSERT, and for each of `sender_id` and `chat_id` the value it
passes is read off the field as a decimal numeral, an optional `+` or `-`
followed by digits. The value is 0 for an empty field and for a sign alone;
it is 0 when a byte that is not a digit follows the sign, unless the digits
before that byte already write more than `2^64-1`, and so for every such
field shorter than 19 bytes; for digits alone it is the number they write,
negated after `-`, when that lies in `int`; in every other case, digits alone
that write a number outside `int` or leading digits that write more than
`2^64-1`, it is the bound of `int` on that side, `-2^63` after `-` and
`2^63-1` otherwise. -/
theorem addMessage_passes_parsed_ids (env : Env) (db : DB) (r : Request)
    (hform : (ParseForm r).2 = false) :
    ∃ senderID chatID : Int,
      (addMessage env db r).issued.head?
        = some (.insertMessage senderID chatID (FormValue (ParseForm r).1 (utf8 "content"))) ∧
      ∀ p ∈ [(FormValue (ParseForm r).1 (utf8 "sender_id"), senderID),
          (FormValue (ParseForm r).1 (utf8 "chat_id"), chatID)],
        (withoutSign p.1 = [] → p.2 = 0) ∧
        ((withoutSign p.1).takeWhile isDecimalDigit ≠ withoutSign p.1 →
          leadingValue (withoutSign p.1) ≤ 2 ^ 64 - 1 → p.2 = 0) ∧
        ((withoutSign p.1).takeWhile isDecimalDigit ≠ withoutSign p.1 →
          p.1.length < 19 → p.2 = 0) ∧
        (withoutSign p.1 ≠ [] →
          (withoutSign p.1).takeWhile isDecimalDigit = withoutSign p.1 →
          (if p.1.head? = some 45 then leadingValue (withoutSign p.1) ≤ 2 ^ 63
            else leadingValue (withoutSign p.1) < 2 ^ 63) →
          p.2 = if p.1.head? = some 45 then -(leadingValue (withoutSign p.1) : Int)
            else (leadingValue (withoutSign p.1) : Int)) ∧
        (withoutSign p.1 ≠ [] →
          ((withoutSign p.1).takeWhile isDecimalDigit = withoutSign p.1
            ∨ 2 ^ 64 - 1 < leadingValue (withoutSign p.1)) →
          ¬ (if p.1.head? = some 45 then leadingValue (withoutSign p.1) ≤ 2 ^ 63
              else leadingValue (withoutSign p.1) < 2 ^ 63) →
          p.2 = if p.1.head? = some 45 then -(2 ^ 63 : Int) else 2 ^ 63 - 1) := by
  have hread : ∀ field : GoString,
      (withoutSign field = [] → (Atoi field).1 = 0) ∧
      ((withoutSign field).takeWhile isDecimalDigit ≠ withoutSign field →
        leadingValue (withoutSign field) ≤ 2 ^ 64 - 1 → (Atoi field).1 = 0) ∧
      ((withoutSign field).takeWhile isDecimalDigit ≠ withoutSign field →
        field.length < 19 → (Atoi field).1 = 0) ∧
      (withoutSign field ≠ [] →
        (withoutSign field).takeWhile isDecimalDigit = withoutSign field →
        (if field.head? = some 45 then leadingValue (withoutSign field) ≤ 2 ^ 63
          else leadingValue (withoutSign field) < 2 ^ 63) →
        (Atoi field).1 = if field.head? = some 45 then -(leadingValue (withoutSign field) : Int)
          else (leadingValue (withoutSign field) : Int)) ∧
      (withoutSign field ≠ [] →
        ((withoutSign field).takeWhile isDecimalDigit = withoutSign field
          ∨ 2 ^ 64 - 1 < leadingValue (withoutSign field)) →
        ¬ (if field.head? = some 45 then leadingValue (withoutSign field) ≤ 2 ^ 63
            else leadingValue (withoutSign field) < 2 ^ 63) →
        (Atoi field).1 = if field.head? = some 45 then -(2 ^ 63 : Int) else 2 ^ 63 - 1) := by
    intro field
    obtain ⟨hA, hB, hC, hD, hE⟩ := Atoi_reading field
    refine ⟨fun h => ?_, fun h hv => ?_, fun h hl => ?_, fun hn ha hi => ?_, fun hn ho hi => ?_⟩
    · rw [hA h]
    · rw [hB h hv]
    · rw [hC h hl]
    · rw [hD hn ha hi]
    · rw [hE hn ho hi]
      rfl
  refine ⟨(Atoi (FormValue (ParseForm r).1 (utf8 "sender_id"))).1,
    (Atoi (FormValue (ParseForm r).1 (utf8 "chat_id"))).1, ?_, ?_⟩
  · simp only [addMessage, hform]
    cases env.inserted <;> simp
  · intro p hp
    simp only [List.mem_cons, List.mem_singleton, List.not_mem_nil, or_false] at hp
    rcases hp with rfl | rfl
    · exact hread _
    · exact hread _

/-- Witness of C5 (amended): a form whose `sender_id` is not a number and
whose `chat_id` is empty sends 0 for both. -/
theorem addMessage_passes_parsed_ids_witness :
    (addMessage calmEnv sampleDB (formRequest "sender_id=abc&chat_id=&content=hi")).issued.head?
      = some (.insertMessage 0 0 (utf8 "hi")) := by
  obtain ⟨senderID, chatID, hhead, hfields⟩ := addMessage_passes_parsed_ids calmEnv sampleDB
    (formRequest "sender_id=abc&chat_id=&content=hi") (by decide)
  have hbad : (withoutSign (FormValue
        (ParseForm (formRequest "sender_id=abc&chat_id=&content=hi")).1
        (utf8 "sender_id"))).takeWhile isDecimalDigit
      ≠ withoutSign (FormValue (ParseForm (formRequest "sender_id=abc&chat_id=&content=hi")).1
        (utf8 "sender_id")) := by decide
  have hshort : (FormValue (ParseForm (formRequest "sender_id=abc&chat_id=&content=hi")).1
      (utf8 "sender_id")).length < 19 := by decide
  have hempty : withoutSign (FormValue
      (ParseForm (formRequest "sender_id=abc&chat_id=&content=hi")).1 (utf8 "chat_id")) = [] := by
    decide
  have hsender : senderID = 0 := (hfields _ (List.mem_cons_self _ _)).2.2.1 hbad hshort
  have hchat : chatID = 0 :=
    (hfields _ (List.mem_cons_of_mem _ (List.mem_cons_self _ _))).1 hempty
  rw [hhead, hsender, hchat]
  decide

/-- C5 (as stated) fails: `sender_id=9223372036854775808` is outside the range
of `int`, `Atoi` reports the range error, and the value passed to the store
is `2^63-1`, not 0. -/
theorem big_sender_is_not_zero :
    (ParseForm bigSenderRequest).2 = false ∧
    (Atoi (FormValue (ParseForm bigSenderRequest).1 (utf8 "sender_id"))).2 = some .ErrRange ∧
    (addMessage calmEnv sampleDB bigSenderRequest).issued.head?
      = some (.insertMessage 9223372036854775807 1 (utf8 "hello")) := by
  decide

/-- C9 (amended). Whenever `ParseForm` returns an error `addMessage` answers
400 `Parse error`, leaves the store as it was and sends no statement; a POST
whose `Body` is nil is such a request. A POST with an empty body and no
Content-Type header is not, unless its query string is malformed: the form
parses as empty apart from the query string and the handler goes on to the
message INSERT. -/
theorem addMessage_parse_error (env : Env) (db : DB) (r : Request) :
    ((ParseForm r).2 = true →
      (addMessage env db r).response = .error "Parse error" 400 ∧
      (addMessage env db r).store = db ∧ (addMessage env db r).issued = []) ∧
    (r.Method = "POST" → r.Body = none → (ParseForm r).2 = true) ∧
    (r.Method = "POST" → r.Body = some (some []) → r.ContentType = none →
      (ParseQuery r.RawQuery).2 = false →
      (ParseForm r).2 = false ∧
      (addMessage env db r).response ≠ .error "Parse error" 400 ∧
      ∃ senderID chatID content,
        (addMessage env db r).issued.head? = some (.insertMessage senderID chatID content)) := by
  refine ⟨?_, ?_, ?_⟩
  · intro herr
    simp [addMessage, herr, StatusBadRequest]
  · intro hm hb
    simp [ParseForm, hm, parsePostForm, hb]
  · intro hm hb hct hq
    have hform : (ParseForm r).2 = false := by
      simp [ParseForm, hm, parsePostForm, hb, hct, hq]
    refine ⟨hform, ?_, ?_⟩
    · simp only [addMessage, hform]
      cases env.inserted <;> simp
    · simp only [addMessage, hform]
      cases env.inserted <;> simp

/-- Witness of C9 (amended): a POST with a malformed escape in its body, a
POST with a nil body, and a POST with an empty body. -/
theorem addMessage_parse_error_witness :
    (addMessage calmEnv sampleDB (formRequest "content=%zz")).response
      = .error "Parse error" 400 ∧
    (ParseForm nilBodyPost).2 = true ∧
    (ParseForm emptyPost).2 = false :=
  ⟨((addMessage_parse_error calmEnv sampleDB (formRequest "content=%zz")).1 (by decide)).1,
   (addMessage_parse_error calmEnv sampleDB nilBodyPost).2.1 rfl rfl,
   ((addMessage_parse_error calmEnv sampleDB emptyPost).2.2 rfl rfl rfl (by decide)).1⟩

/-- C9 (as stated) fails: for a POST with no body the form parses without
error, all three fields read as empty, and the message INSERT is sent with
sender 0, chat 0 and empty content; the response is 500 `DB insert error`
when the store rejects it, and when the store accepts it the response is the
303 redirect and a row is written. -/
theorem empty_post_reaches_insert :
    emptyPost.Method = "POST" ∧ emptyPost.Body = some (some []) ∧
    (ParseForm emptyPost).2 = false ∧ (ParseForm (formRequest "")).2 = false ∧
    (addMessage rejectingEnv sampleDB emptyPost).response = .error "DB insert error" 500 ∧
    (addMessage rejectingEnv sampleDB emptyPost).issued = [.insertMessage 0 0 []] ∧
    (addMessage calmEnv sampleDB emptyPost).response = .redirect "/chat/1" 303 ∧
    (addMessage calmEnv sampleDB emptyPost).store.messages
      = sampleDB.messages ++ [⟨7, 0, 0, [], 100, ⟨"simple", []⟩⟩] := by
  decide

/-! ## Lemmas on the two SELECTs -/

theorem filter_length_le_one {α β : Type} (f : α → β) (p : α → Bool) :
    ∀ l : List α, (l.map f).Nodup → (∀ x y, p x = true → p y = true → f x = f y) →
      (l.filter p).length ≤ 1 := by
  intro l
  induction l with
  | nil => intro _ _; simp
  | cons x xs ih =>
    intro hnd hp
    rw [List.map_cons, List.nodup_cons] at hnd
    by_cases hx : p x = true
    · have hnone : xs.filter p = [] := by
        rw [List.filter_eq_nil_iff]
        intro y hy hpy
        exact hnd.1 (List.mem_map.mpr ⟨y, hy, hp y x hpy hx⟩)
      simp [List.filter_cons, hx, hnone]
    · simpa [List.filter_cons, hx] using ih hnd.2 hp

theorem flatMap_singletons {α β : Type} (g : α → List β) (h : β → α) :
    ∀ l : List α, (∀ a ∈ l, ∃ b, g a = [b] ∧ h b = a) → (l.flatMap g).map h = l := by
  intro l
  induction l with
  | nil => intro _; rfl
  | cons a as ih =>
    intro hall
    obtain ⟨b, hb, hba⟩ := hall a (List.mem_cons_self a as)
    rw [List.flatMap_cons, List.map_append, hb, ih (fun x hx => hall x (List.mem_cons_of_mem a hx))]
    simp [hba]

theorem joinUsers_single (db : DB) (hids : (db.users.map UserRow.id).Nodup) (m : MessageRow)
    (hsender : ∃ u ∈ db.users, u.id = m.sender_id) :
    ∃ p, joinUsers db m = [p] ∧ p.1 = m := by
  have hlen := filter_length_le_one UserRow.id (fun u => decide (u.id = m.sender_id)) db.users
    hids (fun x y hx hy => by
      have hx' : x.id = m.sender_id := by simpa using hx
      have hy' : y.id = m.sender_id := by simpa using hy
      rw [hx', hy'])
  obtain ⟨u, hu, hid⟩ := hsender
  have hmem : u ∈ db.users.filter (fun u => decide (u.id = m.sender_id)) :=
    List.mem_filter.mpr ⟨hu, by simpa using hid⟩
  unfold joinUsers
  cases hf : db.users.filter (fun u => decide (u.id = m.sender_id)) with
  | nil => rw [hf] at hmem; cases hmem
  | cons v vs =>
    rw [hf] at hlen
    have hvs : vs = [] := by
      cases vs with
      | nil => rfl
      | cons _ _ => simp at hlen
    subst hvs
    exact ⟨_, rfl, rfl⟩

theorem bySentAt_sorted (l : List (MessageRow × UserRow)) :
    (l.insertionSort bySentAt).Sorted bySentAt := by
  haveI : IsTotal (MessageRow × UserRow) bySentAt := ⟨fun a b => Nat.le_total _ _⟩
  haveI : IsTrans (MessageRow × UserRow) bySentAt := ⟨fun _ _ _ hab hbc => Nat.le_trans hab hbc⟩
  exact List.sorted_insertionSort bySentAt l

/-- C7 (amended). When the message query succeeds in full for the chat `c` the
store reads the route variable as (`Query` returns no error and the row
stream delivers every row), every row scan succeeds and the page template
parses, `viewMessages` renders the id, content and `sent_at` of the messages
of chat `c`, each with the name of a user that has the id of its sender,
all such pairs and nothing else, ordered by `sent_at` ascending; nothing is
said about the order of messages with equal `sent_at`. When user ids are
unique and every sender has a user row, the messages rendered are the
messages of chat `c`, each once. -/
theorem viewMessages_renders_chat (env : Env) (db : DB) (r : Request) (c : Int)
    (hquery : env.queryErr = false) (hchat : env.int4in (r.Vars "chatId") = some c)
    (hstream : env.streamEnds = none) (hscan : ∀ i, env.scanErr i = false)
    (htmpl : env.parseFilesErr "templates/index.html" = false) :
    ∃ rows : List (MessageRow × UserRow),
      (viewMessages env db r).response
        = .page "templates/index.html" (.messages (rows.map (fun p =>
            ⟨p.1.id, p.2.username, p.1.content, p.1.sent_at⟩))) ∧
      (∀ m u, (m, u) ∈ rows ↔
        m ∈ db.messages ∧ m.chat_id = c ∧ u ∈ db.users ∧ u.id = m.sender_id) ∧
      rows.Sorted (fun p q => p.1.sent_at ≤ q.1.sent_at) ∧
      ((db.users.map UserRow.id).Nodup →
        (∀ m ∈ db.messages, ∃ u ∈ db.users, u.id = m.sender_id) →
        (rows.map Prod.fst).Perm (db.messages.filter (fun m => m.chat_id = c))) := by
  have hrows : queryMessages env db (r.Vars "chatId") = some (selectMessages db c) := by
    simp [queryMessages, hquery, hchat]
  have hperm : ((chatRows db c).insertionSort bySentAt).Perm (chatRows db c) :=
    List.perm_insertionSort _ _
  refine ⟨(chatRows db c).insertionSort bySentAt, ?_, ?_, ?_, ?_⟩
  · simp only [viewMessages, hrows, hstream, scanRows_ok _ hscan, htmpl]
    rfl
  · intro m u
    rw [hperm.mem_iff]
    simp only [chatRows, List.mem_filter, List.mem_flatMap, joinUsers, List.mem_map,
      decide_eq_true_eq, Prod.mk.injEq]
    constructor
    · rintro ⟨⟨m', hm', u', ⟨hu', hid⟩, rfl, rfl⟩, hc⟩
      exact ⟨hm', hc, hu', hid⟩
    · rintro ⟨hm, hc, hu, hid⟩
      exact ⟨⟨m, hm, u, ⟨hu, hid⟩, rfl, rfl⟩, hc⟩
  · exact (bySentAt_sorted (chatRows db c)).imp (fun h => h)
  · intro hids hsenders
    have hall := flatMap_singletons (joinUsers db) Prod.fst db.messages
      (fun m hm => joinUsers_single db hids m (hsenders m hm))
    refine (hperm.map Prod.fst).trans ?_
    have hfilter : (chatRows db c).map Prod.fst
        = ((db.messages.flatMap (joinUsers db)).map Prod.fst).filter (fun m => m.chat_id = c) := by
      rw [chatRows, List.filter_map]
      rfl
    rw [hfilter, hall]

/-- Witness of C7 (amended): the page of chat 1 of the sample store. -/
theorem viewMessages_renders_chat_witness :
    ∃ rows : List (MessageRow × UserRow),
      (viewMessages calmEnv sampleDB (chatRequest "1")).response
        = .page "templates/index.html" (.messages (rows.map (fun p =>
            ⟨p.1.id, p.2.username, p.1.content, p.1.sent_at⟩))) ∧
      rows.Sorted (fun p q => p.1.sent_at ≤ q.1.sent_at) ∧
      (rows.map Prod.fst).Perm (sampleDB.messages.filter (fun m => m.chat_id = 1)) := by
  obtain ⟨rows, hpage, _, hsorted, hall⟩ :=
    viewMessages_renders_chat calmEnv sampleDB (chatRequest "1") 1 rfl (by decide) rfl
      (fun _ => rfl) rfl
  exact ⟨rows, hpage, hsorted, hall (by decide) (by decide)⟩

/-- C7 (as stated) fails. The sample store has unique user ids and a user row
for every sender; its two messages of chat 1 have the same `sent_at`, the
query succeeds in full, and the page shows id 2 before id 1. -/
theorem viewMessages_ties_not_by_id :
    (sampleDB.users.map UserRow.id).Nodup ∧
    (∀ m ∈ sampleDB.messages, ∃ u ∈ sampleDB.users, u.id = m.sender_id) ∧
    calmEnv.queryErr = false ∧ calmEnv.streamEnds = none ∧
    (viewMessages calmEnv sampleDB (chatRequest "1")).response
      = .page "templates/index.html"
          (.messages [⟨2, "ann", utf8 "second", 5⟩, ⟨1, "ann", utf8 "first", 5⟩]) := by
  decide

end BDuseCase
